import Mathlib

/-
Shallow embedding of `utils/autobatch.py` (YOLOv5 6.1 auto-batch utility).

The file models the two entry points of the module:

  * `autobatch(model, imgsz=640, fraction=0.9, batch_size=16)` — estimates a
    batch size from CUDA memory statistics and a linear fit over probe samples;
  * `check_train_batch_size(model, imgsz=640)` — the convenience wrapper that
    deep-copies the model, puts the copy in training mode, and runs `autobatch`
    under `amp.autocast()`.

Machine floats are modelled by exact rationals (the spec states all numeric
claims "within floating-point tolerance").  The external collaborators
(CUDA memory API, the profiling helper `utils.torch_utils.profile`, the
logger) are modelled as explicit inputs: the memory statistics as a record,
the profiling step's outcome as a value of `ProfileOutcome` (either the list
it returned, or the fact that it raised), so that `autobatch` is a pure
function of its environment.
-/

/-- Kind of the device holding the model parameters
(`next(model.parameters()).device.type` in the source). -/
inductive DeviceType where
  | cpu
  | cuda
deriving DecidableEq

/-- Device memory statistics reported by the accelerator API, in bytes:
`properties.total_memory`, `torch.cuda.memory_reserved(device)`,
`torch.cuda.memory_allocated(device)`. -/
structure MemStats where
  total_memory : ℚ
  reserved : ℚ
  allocated : ℚ
deriving DecidableEq

/-- One successful probe result entry as consumed by `autobatch`: the source
reads the memory value at index 2 of each profiling-result entry
(`x[2]`), so we keep the elapsed time and the memory-used fields of the
spec's MemorySample. -/
structure ProbeSample where
  elapsed_time : ℚ
  memory_used : ℚ
deriving DecidableEq

/-- The model object, reduced to the observables `autobatch` and
`check_train_batch_size` touch: the device of its parameters, its
training/evaluation mode flag, and its parameter values. -/
structure Model where
  device : DeviceType
  training : Bool
  params : List ℚ
deriving DecidableEq

/-- Outcome of the guarded probing step (the `try` body: building the zero
tensors and calling the profiling helper).  Either the whole step raised an
exception — which the `except` clause catches — or it returned a list of
per-candidate entries, where a `none` entry stands for Python's `None`
(the only falsy value the helper produces for a failed candidate). -/
inductive ProfileOutcome where
  | raised
  | returned (entries : List (Option ProbeSample))

/-- Uncontrolled Python-level failures `autobatch` can surface to its caller:
`unboundLocal` is the `UnboundLocalError` raised by `y = [x[2] for x in y if x]`
when the `except` path left `y` unassigned; `degenerateFit` stands for the
numeric failures of the unguarded fit/division (empty input to the fit,
or integer conversion of the infinite/NaN quotient produced by a zero slope).
The rank-deficient one-sample fit is mapped here as well: its exact
behaviour (a RankWarning plus a minimum-norm solution) is a numerics-library
detail the spec itself flags as unspecified. -/
inductive PyError where
  | unboundLocal
  | degenerateFit
deriving DecidableEq

/-- One GiB in bytes (`1024 ** 3`). -/
def gibibyte : ℚ := 1024 ^ 3

/-- `t = properties.total_memory / 1024 ** 3`. -/
def totalGiB (mem : MemStats) : ℚ := mem.total_memory / gibibyte

/-- `r = torch.cuda.memory_reserved(device) / 1024 ** 3`. -/
def reservedGiB (mem : MemStats) : ℚ := mem.reserved / gibibyte

/-- `a = torch.cuda.memory_allocated(device) / 1024 ** 3`. -/
def allocatedGiB (mem : MemStats) : ℚ := mem.allocated / gibibyte

/-- `f = t - (r + a)  # free inside reserved`. -/
def freeGiB (mem : MemStats) : ℚ :=
  totalGiB mem - (reservedGiB mem + allocatedGiB mem)

/-- `batch_sizes = [1, 2, 4, 8, 16]` (as the x-values later handed to the
polynomial fit). -/
def candidateBatchSizes : List ℚ := [1, 2, 4, 8, 16]

/-- `y = [x[2] for x in y if x]`: keep the memory value of every truthy
entry.  A present (non-`None`) entry is a non-empty Python list, hence
truthy regardless of the value stored in its memory field. -/
def keepTruthy : List (Option ProbeSample) → List ℚ
  | [] => []
  | none :: rest => keepTruthy rest
  | some s :: rest => s.memory_used :: keepTruthy rest

/-- `batch_sizes = batch_sizes[:len(y)]`: the x-values actually used by the
fit. -/
def fitBatchSizes (entries : List (Option ProbeSample)) : List ℚ :=
  candidateBatchSizes.take (keepTruthy entries).length

/-- The (batch_size, memory_used) pairs the linear fit is computed over. -/
def fitPairs (entries : List (Option ProbeSample)) : List (ℚ × ℚ) :=
  List.zip (fitBatchSizes entries) (keepTruthy entries)

/-- Python's `int()` on a finite float: truncation toward zero. -/
def pyInt (q : ℚ) : ℤ := if 0 ≤ q then ⌊q⌋ else ⌈q⌉

/-- Sum of squares of a list. -/
def sqSum (l : List ℚ) : ℚ := (l.map (fun x => x * x)).sum

/-- Sum of pairwise products of two lists. -/
def dotSum (xs ys : List ℚ) : ℚ := (List.zipWith (fun x y => x * y) xs ys).sum

/-- Determinant of the 2×2 normal-equation matrix of the degree-1
least-squares problem with abscissas `xs`. -/
def lsqDet (xs : List ℚ) : ℚ :=
  (xs.length : ℚ) * sqSum xs - xs.sum * xs.sum

/-- `np.polyfit(batch_sizes, y, deg=1)` in exact arithmetic: the unique
least-squares line `y ≈ slope·x + intercept`, returned as
`(slope, intercept)` (numpy returns the coefficients highest degree first:
`p[0]` slope, `p[1]` intercept).  `none` models the cases where the fit is
not a well-defined unique minimiser and numpy raises or degrades
(length mismatch, empty input, rank-deficient design matrix). -/
def polyfit1 (xs ys : List ℚ) : Option (ℚ × ℚ) :=
  if xs.length = ys.length ∧ lsqDet xs ≠ 0 then
    some
      (((xs.length : ℚ) * dotSum xs ys - xs.sum * ys.sum) / lsqDet xs,
       (sqSum xs * ys.sum - xs.sum * dotSum xs ys) / lsqDet xs)
  else none

/-- `autobatch(model, imgsz=640, fraction=0.9, batch_size=16)`.

The device check, the memory statistics, the filtering of the profiling
result, the truncation of the candidate list, the fit and the final
integer conversion follow the source line by line.  When the probing step
raised (`ProfileOutcome.raised`), the `except` clause catches the exception
and logs a warning, but the local `y` was never assigned, so evaluating
`y = [x[2] for x in y if x]` raises `UnboundLocalError` to the caller:
this is the `Except.error PyError.unboundLocal` branch.  A fit that numpy
cannot solve uniquely, and the division by a zero slope followed by `int()`,
surface as `PyError.degenerateFit`. -/
def autobatch (model : Model) (mem : MemStats) (pr : ProfileOutcome)
    (imgsz : ℕ := 640) (fraction : ℚ := 9 / 10) (batch_size : ℤ := 16) :
    Except PyError ℤ :=
  if model.device = DeviceType.cpu then
    Except.ok batch_size
  else
    match pr with
    | ProfileOutcome.raised => Except.error PyError.unboundLocal
    | ProfileOutcome.returned entries =>
      match polyfit1 (fitBatchSizes entries) (keepTruthy entries) with
      | none => Except.error PyError.degenerateFit
      | some (slope, intercept) =>
        if slope = 0 then Except.error PyError.degenerateFit
        else Except.ok (pyInt ((freeGiB mem * fraction - intercept) / slope))

/-- `copy.deepcopy(model)`: an independent replica with equal contents;
mutating the replica cannot affect the original object. -/
def deepcopy (m : Model) : Model := m

/-- `model.train()`: switches the (receiver) module to training mode and
returns it. -/
def trainMode (m : Model) : Model := { m with training := true }

/-- Observable outcome of one call to `check_train_batch_size`: the value it
returns, the state of the caller's model object after the call, the model
object actually handed to the estimator, and whether the estimation ran
inside `amp.autocast()`. -/
structure TrainBatchCall where
  value : Except PyError ℤ
  callerModel : Model
  probedModel : Model
  underAutocast : Bool

/-- `check_train_batch_size(model, imgsz=640)`:
`with amp.autocast(): return autobatch(deepcopy(model).train(), imgsz)`.
The mutation performed by `.train()` lands on the deep copy, which is a
distinct object graph, so the caller's model is returned unchanged in
`callerModel`. -/
def check_train_batch_size (model : Model) (mem : MemStats)
    (pr : ProfileOutcome) (imgsz : ℕ := 640) : TrainBatchCall :=
  let probed := trainMode (deepcopy model)
  { value := autobatch probed mem pr imgsz
    callerModel := model
    probedModel := probed
    underAutocast := true }

/-- Modelled from the spec: the profiling helper
(`utils.torch_utils.profile`, whose source is not part of this
repository snapshot) probes the candidate batch sizes in increasing order
and, per spec §4.1 step 3, "if any candidate raises …, probing stops …
and only the successfully collected prefix of samples is used downstream";
per §6 it "returns per-candidate (shape, time, memory) triples or omits
entries on failure".  `probe b` is the outcome of one candidate probe
(`none` = that candidate fails). -/
def runProfile (probe : ℚ → Option ProbeSample) : List ℚ → List (Option ProbeSample)
  | [] => []
  | b :: rest =>
    match probe b with
    | none => []
    | some s => some s :: runProfile probe rest

/-- Modelled from the spec: "a warning is emitted" exactly when some
candidate probe failed, i.e. when probing stopped before exhausting the
candidate list. -/
def profileWarned (probe : ℚ → Option ProbeSample) (bs : List ℚ) : Bool :=
  (runProfile probe bs).length < bs.length

/-- The filtering rule exactly as claim C5 words it (to be compared with the
source's `keepTruthy`): discard the samples "whose memory_used field is
absent or falsy" — i.e. keep a memory value only when the entry is present
and the value is nonzero (`0.0` is falsy in Python). -/
def claimedValidMemories (entries : List (Option ProbeSample)) : List ℚ :=
  ((entries.filterMap id).map ProbeSample.memory_used).filter (fun m => m ≠ 0)

/-- Residual sum of squares of the line `y = a·x + b` over the sample lists:
the objective that least squares minimises. -/
def sumSqErr (a b : ℚ) : List ℚ → List ℚ → ℚ
  | x :: xs, y :: ys => (a * x + b - y) ^ 2 + sumSqErr a b xs ys
  | _, _ => 0

/- ------------------------------------------------------------------ -/
/- Theorems                                                           -/
/- ------------------------------------------------------------------ -/

/-- C6: on the accelerator path the free-memory value used by the estimator
equals total − (reserved + allocated), converted to GiB — exactly, in the
rational model. -/
theorem freeGiB_eq_total_sub (mem : MemStats) :
    freeGiB mem = (mem.total_memory - (mem.reserved + mem.allocated)) / 1024 ^ 3 := by
  unfold freeGiB totalGiB reservedGiB allocatedGiB gibibyte
  ring

/-- C3: for a model whose parameters report a CPU device, `autobatch`
returns the fallback `batch_size` argument verbatim, for every memory state
and every outcome of the profiling step — in particular the result does not
depend on the profiling helper at all (no probing is performed). -/
theorem autobatch_cpu_fallback (model : Model) (hdev : model.device = DeviceType.cpu)
    (mem : MemStats) (pr : ProfileOutcome) (imgsz : ℕ) (fraction : ℚ)
    (batch_size : ℤ) :
    autobatch model mem pr imgsz fraction batch_size = Except.ok batch_size := by
  unfold autobatch
  rw [hdev]
  simp

theorem autobatch_cpu_fallback_witness :
    autobatch ⟨DeviceType.cpu, false, []⟩ ⟨2 ^ 30, 0, 0⟩ ProfileOutcome.raised
      640 (9 / 10) 7 = Except.ok 7 :=
  autobatch_cpu_fallback ⟨DeviceType.cpu, false, []⟩ rfl ⟨2 ^ 30, 0, 0⟩
    ProfileOutcome.raised 640 (9 / 10) 7

/-- C8: the estimator is deterministic — two calls whose device, memory
statistics, profiling outcome, image size, fraction and fallback agree
return the same batch size. -/
theorem autobatch_deterministic (m₁ m₂ : Model) (mem₁ mem₂ : MemStats)
    (pr₁ pr₂ : ProfileOutcome) (i₁ i₂ : ℕ) (f₁ f₂ : ℚ) (b₁ b₂ : ℤ)
    (hm : m₁ = m₂) (hmem : mem₁ = mem₂) (hpr : pr₁ = pr₂) (hi : i₁ = i₂)
    (hf : f₁ = f₂) (hb : b₁ = b₂) :
    autobatch m₁ mem₁ pr₁ i₁ f₁ b₁ = autobatch m₂ mem₂ pr₂ i₂ f₂ b₂ := by
  rw [hm, hmem, hpr, hi, hf, hb]

theorem autobatch_deterministic_witness :
    autobatch ⟨DeviceType.cuda, false, []⟩ ⟨2 ^ 30, 0, 0⟩
        (ProfileOutcome.returned [some ⟨1, 2⟩, some ⟨1, 3⟩]) 640 (9 / 10) 16 =
      autobatch ⟨DeviceType.cuda, false, []⟩ ⟨2 ^ 30, 0, 0⟩
        (ProfileOutcome.returned [some ⟨1, 2⟩, some ⟨1, 3⟩]) 640 (9 / 10) 16 :=
  autobatch_deterministic _ _ _ _ _ _ _ _ _ _ _ _ rfl rfl rfl rfl rfl rfl

/-- C9: `check_train_batch_size` estimates on a deep copy of the model
placed in training mode, under the mixed-precision context, and the
caller's model object — its mode flag and its parameters — is left exactly
as it was. -/
theorem check_train_batch_size_frame (model : Model) (mem : MemStats)
    (pr : ProfileOutcome) (imgsz : ℕ) :
    (check_train_batch_size model mem pr imgsz).callerModel = model ∧
    (check_train_batch_size model mem pr imgsz).probedModel =
      trainMode (deepcopy model) ∧
    (check_train_batch_size model mem pr imgsz).probedModel.training = true ∧
    (check_train_batch_size model mem pr imgsz).underAutocast = true :=
  ⟨rfl, rfl, rfl, rfl⟩

/-- C10: the wrapper exposes only the model and the image size; every call
performs the estimation with the target fraction fixed at 0.9 and the CPU
fallback fixed at 16 (the defaults of `autobatch`, which the wrapper never
overrides). -/
theorem check_train_batch_size_fixed_defaults (model : Model) (mem : MemStats)
    (pr : ProfileOutcome) (imgsz : ℕ) :
    (check_train_batch_size model mem pr imgsz).value =
      autobatch (trainMode (deepcopy model)) mem pr imgsz (9 / 10) 16 :=
  rfl

/-- C1 (code bug): when the guarded probing step raises on an accelerator
device, the `except` clause catches and logs the exception, but the
subsequent `y = [x[2] for x in y if x]` reads the never-assigned local `y`
and raises `UnboundLocalError` to the caller — the call does not return an
integer, contradicting the claim's propagation policy, and the failure is
not of the degenerate-fit kind. -/
theorem autobatch_probe_exception_unbound :
    autobatch ⟨DeviceType.cuda, false, []⟩ ⟨2 ^ 30, 0, 0⟩ ProfileOutcome.raised
      640 (9 / 10) 16 = Except.error PyError.unboundLocal := rfl

/-- C5 (counterexample): the source keeps a present probe entry even when
its memory value is `0.0` (a falsy float), because the comprehension's
filter `if x` tests the entry, not its memory field: on
`[some ⟨1, 0⟩]` the code retains the memory value `0`, while the claim's
filtering rule discards it. -/
theorem keepTruthy_zero_memory_retained :
    keepTruthy [some ⟨1, 0⟩] = [0] ∧
    claimedValidMemories [some ⟨1, 0⟩] = [] ∧
    keepTruthy [some ⟨1, 0⟩] ≠ claimedValidMemories [some ⟨1, 0⟩] := by
  refine ⟨rfl, rfl, ?_⟩
  decide

/-- C5 (amended): the filter discards exactly the absent/falsy entries
themselves (`None` results): the retained memory values are the
`memory_used` fields of the present entries in order — even when such a
value is zero — and the candidate batch-size list is truncated to the
number of retained samples. -/
theorem keepTruthy_filters_falsy_entries (entries : List (Option ProbeSample)) :
    keepTruthy entries = (entries.filterMap id).map ProbeSample.memory_used ∧
    (fitBatchSizes entries).length = min (keepTruthy entries).length 5 := by
  constructor
  · induction entries with
    | nil => rfl
    | cons e rest ih =>
      cases e with
      | none => simpa [keepTruthy] using ih
      | some s => simpa [keepTruthy] using ih
  · simp [fitBatchSizes, candidateBatchSizes]

/- ------------------------------------------------------------------ -/
/- Least-squares helper lemmas                                        -/
/- ------------------------------------------------------------------ -/

theorem sqSum_cons (x : ℚ) (l : List ℚ) : sqSum (x :: l) = x * x + sqSum l := by
  simp [sqSum]

theorem dotSum_cons (x y : ℚ) (xs ys : List ℚ) :
    dotSum (x :: xs) (y :: ys) = x * y + dotSum xs ys := by
  simp [dotSum]

theorem sumSqErr_cons (a b x y : ℚ) (xs ys : List ℚ) :
    sumSqErr a b (x :: xs) (y :: ys) = (a * x + b - y) ^ 2 + sumSqErr a b xs ys := rfl

theorem sumSqErr_expand (a b : ℚ) (xs : List ℚ) :
    ∀ ys : List ℚ, xs.length = ys.length →
      sumSqErr a b xs ys =
        a * a * sqSum xs + 2 * a * b * xs.sum - 2 * a * dotSum xs ys
          + (xs.length : ℚ) * (b * b) - 2 * b * ys.sum + sqSum ys := by
  induction xs with
  | nil =>
    intro ys h
    cases ys with
    | nil => simp [sumSqErr, sqSum, dotSum]
    | cons y ys => simp at h
  | cons x xs ih =>
    intro ys h
    cases ys with
    | nil => simp at h
    | cons y ys =>
      have h' : xs.length = ys.length := by simpa using h
      rw [sumSqErr_cons, ih ys h', sqSum_cons, sqSum_cons, dotSum_cons,
        List.sum_cons, List.sum_cons, List.length_cons]
      push_cast
      ring

theorem polyfit1_eq (xs ys : List ℚ) (m c : ℚ) (h : polyfit1 xs ys = some (m, c)) :
    xs.length = ys.length ∧ lsqDet xs ≠ 0 ∧
    m = ((xs.length : ℚ) * dotSum xs ys - xs.sum * ys.sum) / lsqDet xs ∧
    c = (sqSum xs * ys.sum - xs.sum * dotSum xs ys) / lsqDet xs := by
  unfold polyfit1 at h
  split_ifs at h with hc
  simp only [Option.some.injEq, Prod.mk.injEq] at h
  exact ⟨hc.1, hc.2, h.1.symm, h.2.symm⟩

theorem polyfit1_normal (xs ys : List ℚ) (m c : ℚ)
    (h : polyfit1 xs ys = some (m, c)) :
    sqSum xs * m + xs.sum * c = dotSum xs ys ∧
    xs.sum * m + (xs.length : ℚ) * c = ys.sum := by
  obtain ⟨hlen, hd, hm, hc⟩ := polyfit1_eq xs ys m c h
  subst hm hc
  unfold lsqDet at hd ⊢
  constructor
  · field_simp
    ring
  · field_simp
    ring

theorem sqSum_nonneg (l : List ℚ) : 0 ≤ sqSum l := by
  unfold sqSum
  apply List.sum_nonneg
  intro x hx
  simp only [List.mem_map] at hx
  obtain ⟨x', _, rfl⟩ := hx
  exact mul_self_nonneg x'

theorem lsq_min (xs ys : List ℚ) (m c : ℚ) (h : polyfit1 xs ys = some (m, c))
    (hd : 0 < lsqDet xs) (a b : ℚ) :
    sumSqErr m c xs ys ≤ sumSqErr a b xs ys := by
  obtain ⟨hlen, _, _, _⟩ := polyfit1_eq xs ys m c h
  obtain ⟨ne1, ne2⟩ := polyfit1_normal xs ys m c h
  have hsq : 0 ≤ sqSum xs := sqSum_nonneg xs
  have hdet : 0 < (xs.length : ℚ) * sqSum xs - xs.sum * xs.sum := by
    have : lsqDet xs = (xs.length : ℚ) * sqSum xs - xs.sum * xs.sum := rfl
    linarith [this ▸ hd]
  have hn : 0 < (xs.length : ℚ) := by
    rcases lt_or_le 0 ((xs.length : ℚ)) with hpos | hnp
    · exact hpos
    · nlinarith [mul_self_nonneg xs.sum, mul_nonpos_of_nonpos_of_nonneg hnp hsq]
  have key : sumSqErr a b xs ys - sumSqErr m c xs ys =
      sqSum xs * (a - m) ^ 2 + 2 * xs.sum * (a - m) * (b - c)
        + (xs.length : ℚ) * (b - c) ^ 2 := by
    rw [sumSqErr_expand a b xs ys hlen, sumSqErr_expand m c xs ys hlen]
    linear_combination (2 * (a - m)) * ne1 + (2 * (b - c)) * ne2
  have expandQ : (xs.length : ℚ) *
      (sqSum xs * (a - m) ^ 2 + 2 * xs.sum * (a - m) * (b - c)
        + (xs.length : ℚ) * (b - c) ^ 2) =
      ((xs.length : ℚ) * (b - c) + xs.sum * (a - m)) ^ 2
        + ((xs.length : ℚ) * sqSum xs - xs.sum * xs.sum) * (a - m) ^ 2 := by
    ring
  have hq : 0 ≤ sqSum xs * (a - m) ^ 2 + 2 * xs.sum * (a - m) * (b - c)
      + (xs.length : ℚ) * (b - c) ^ 2 := by
    nlinarith [sq_nonneg ((xs.length : ℚ) * (b - c) + xs.sum * (a - m)),
      mul_nonneg hdet.le (sq_nonneg (a - m)), hn, expandQ]
  linarith [key, hq]

theorem lsqDet_take_pos (k : ℕ) (h2 : 2 ≤ k) (h5 : k ≤ 5) :
    0 < lsqDet (candidateBatchSizes.take k) := by
  interval_cases k <;>
    norm_num [lsqDet, sqSum, candidateBatchSizes, List.take, List.sum_cons]

theorem pyInt_nonneg_eq (q : ℚ) (z : ℤ) (h0 : 0 ≤ q) (h1 : (z : ℚ) ≤ q)
    (h2 : q < z + 1) : pyInt q = z := by
  rw [pyInt, if_pos h0]
  exact Int.floor_eq_iff.mpr ⟨h1, by exact_mod_cast h2⟩

theorem pyInt_mono {x y : ℚ} (h : x ≤ y) : pyInt x ≤ pyInt y := by
  unfold pyInt
  split_ifs with hx hy hy
  · exact Int.floor_le_floor h
  · exact absurd (le_trans hx h) hy
  · have h1 : ⌈x⌉ ≤ 0 := Int.ceil_le.mpr (by exact_mod_cast le_of_not_le hx)
    have h2 : 0 ≤ ⌊y⌋ := Int.le_floor.mpr (by exact_mod_cast hy)
    omega
  · exact Int.ceil_le_ceil h

/-- C2: on the accelerator path with at least two (and at most five) valid
samples and a nonzero fitted slope, `autobatch` returns exactly
`int((free · fraction − intercept) / slope)` where `(slope, intercept)` is
the least-squares degree-1 fit of memory_used against batch size — i.e. the
pair minimising the residual sum of squares over the valid
(batch_size, memory_used) pairs. -/
theorem autobatch_leastSquares_fit (model : Model) (mem : MemStats)
    (entries : List (Option ProbeSample)) (imgsz : ℕ) (fraction : ℚ) (bsz : ℤ)
    (hdev : model.device = DeviceType.cuda)
    (h2 : 2 ≤ (keepTruthy entries).length)
    (h5 : (keepTruthy entries).length ≤ 5)
    (slope intercept : ℚ)
    (hfit : polyfit1 (fitBatchSizes entries) (keepTruthy entries) =
      some (slope, intercept))
    (hslope : slope ≠ 0) :
    autobatch model mem (ProfileOutcome.returned entries) imgsz fraction bsz =
      Except.ok (pyInt ((freeGiB mem * fraction - intercept) / slope)) ∧
    ∀ a b : ℚ,
      sumSqErr slope intercept (fitBatchSizes entries) (keepTruthy entries) ≤
        sumSqErr a b (fitBatchSizes entries) (keepTruthy entries) := by
  constructor
  · simp [autobatch, hdev, hfit, hslope]
  · intro a b
    have hd : 0 < lsqDet (fitBatchSizes entries) :=
      lsqDet_take_pos (keepTruthy entries).length h2 h5
    exact lsq_min _ _ _ _ hfit hd a b

theorem autobatch_leastSquares_fit_witness :
    autobatch ⟨DeviceType.cuda, false, []⟩ ⟨2 ^ 31, 0, 0⟩
        (ProfileOutcome.returned [some ⟨1, 1⟩, some ⟨1, 2⟩, some ⟨1, 3⟩])
        640 (9 / 10) 16 =
      Except.ok (pyInt ((freeGiB ⟨2 ^ 31, 0, 0⟩ * (9 / 10) - 1 / 2) / (9 / 14))) :=
  (autobatch_leastSquares_fit ⟨DeviceType.cuda, false, []⟩ ⟨2 ^ 31, 0, 0⟩
    [some ⟨1, 1⟩, some ⟨1, 2⟩, some ⟨1, 3⟩] 640 (9 / 10) 16 rfl
    (by decide) (by decide) (9 / 14) (1 / 2)
    (by norm_num [polyfit1, fitBatchSizes, keepTruthy, candidateBatchSizes,
      lsqDet, sqSum, dotSum])
    (by norm_num)).1

/-- C4: on the accelerator path, when probing succeeds on the candidates 1,
2 and 4 and fails on 8, the profiling step (as the spec describes it) stops
at the failure and hands back exactly the success prefix: the fit pairs are
`[(1, m1), (2, m2), (4, m4)]` — each retained memory value paired with the
batch size that produced it — a warning is emitted, and (for a
non-degenerate slope) no error reaches the caller: `autobatch` returns the
fitted integer. -/
theorem autobatch_prefix_truncation (probe : ℚ → Option ProbeSample)
    (model : Model) (mem : MemStats) (imgsz : ℕ) (fraction : ℚ) (bsz : ℤ)
    (s1 s2 s4 : ProbeSample)
    (hdev : model.device = DeviceType.cuda)
    (h1 : probe 1 = some s1) (h2 : probe 2 = some s2) (h4 : probe 4 = some s4)
    (h8 : probe 8 = none)
    (slope intercept : ℚ)
    (hfit : polyfit1 [1, 2, 4] [s1.memory_used, s2.memory_used, s4.memory_used] =
      some (slope, intercept))
    (hslope : slope ≠ 0) :
    runProfile probe candidateBatchSizes = [some s1, some s2, some s4] ∧
    fitPairs (runProfile probe candidateBatchSizes) =
      [(1, s1.memory_used), (2, s2.memory_used), (4, s4.memory_used)] ∧
    profileWarned probe candidateBatchSizes = true ∧
    autobatch model mem
        (ProfileOutcome.returned (runProfile probe candidateBatchSizes))
        imgsz fraction bsz =
      Except.ok (pyInt ((freeGiB mem * fraction - intercept) / slope)) := by
  have hrun : runProfile probe candidateBatchSizes = [some s1, some s2, some s4] := by
    simp [candidateBatchSizes, runProfile, h1, h2, h4, h8]
  have hkeep : keepTruthy [some s1, some s2, some s4] =
      [s1.memory_used, s2.memory_used, s4.memory_used] := rfl
  have hfitbs : fitBatchSizes [some s1, some s2, some s4] = [1, 2, 4] := rfl
  refine ⟨hrun, ?_, ?_, ?_⟩
  · rw [hrun]
    rfl
  · simp only [profileWarned, hrun]
    simp [candidateBatchSizes]
  · rw [hrun]
    simp only [autobatch, hdev, hfitbs, hkeep, hfit]
    simp [hslope]

theorem autobatch_prefix_truncation_witness :
    autobatch ⟨DeviceType.cuda, false, []⟩ ⟨2 ^ 30, 0, 0⟩
        (ProfileOutcome.returned (runProfile
          (fun b => if b = 1 then some ⟨1, 1⟩ else if b = 2 then some ⟨1, 2⟩
            else if b = 4 then some ⟨1, 4⟩ else none) candidateBatchSizes))
        640 (9 / 10) 16 =
      Except.ok (pyInt ((freeGiB ⟨2 ^ 30, 0, 0⟩ * (9 / 10) - 0) / 1)) :=
  (autobatch_prefix_truncation
    (fun b => if b = 1 then some ⟨1, 1⟩ else if b = 2 then some ⟨1, 2⟩
      else if b = 4 then some ⟨1, 4⟩ else none)
    ⟨DeviceType.cuda, false, []⟩ ⟨2 ^ 30, 0, 0⟩ 640 (9 / 10) 16
    ⟨1, 1⟩ ⟨1, 2⟩ ⟨1, 4⟩ rfl (by norm_num) (by norm_num) (by norm_num)
    (by norm_num) 1 0
    (by norm_num [polyfit1, lsqDet, sqSum, dotSum]) one_ne_zero).2.2.2

/-- C7 (counterexample): with probe memories 0 and 100 at batch sizes 1 and
2, fitted slope 100 (positive) and free memory 1 GiB (positive), the
fractions 1.0 and 0.5 both yield batch size 1 — `int()` truncation collapses
the difference, so the result for fraction 1.0 is not strictly greater. -/
theorem autobatch_fraction_not_strict :
    polyfit1 (fitBatchSizes [some ⟨1, 0⟩, some ⟨1, 100⟩])
        (keepTruthy [some ⟨1, 0⟩, some ⟨1, 100⟩]) = some (100, -100) ∧
    (0 : ℚ) < 100 ∧
    0 < freeGiB ⟨2 ^ 30, 0, 0⟩ ∧
    autobatch ⟨DeviceType.cuda, false, []⟩ ⟨2 ^ 30, 0, 0⟩
        (ProfileOutcome.returned [some ⟨1, 0⟩, some ⟨1, 100⟩]) 640 1 16 =
      Except.ok 1 ∧
    autobatch ⟨DeviceType.cuda, false, []⟩ ⟨2 ^ 30, 0, 0⟩
        (ProfileOutcome.returned [some ⟨1, 0⟩, some ⟨1, 100⟩]) 640 (1 / 2) 16 =
      Except.ok 1 := by
  have hfit : polyfit1 (fitBatchSizes [some ⟨1, 0⟩, some ⟨1, 100⟩])
      (keepTruthy [some ⟨1, 0⟩, some ⟨1, 100⟩]) = some (100, -100) := by
    norm_num [polyfit1, fitBatchSizes, keepTruthy, candidateBatchSizes,
      lsqDet, sqSum, dotSum]
  have hfree : freeGiB ⟨2 ^ 30, 0, 0⟩ = 1 := by
    norm_num [freeGiB, totalGiB, reservedGiB, allocatedGiB, gibibyte]
  refine ⟨hfit, by norm_num, by rw [hfree]; norm_num, ?_, ?_⟩
  · have e : autobatch ⟨DeviceType.cuda, false, []⟩ ⟨2 ^ 30, 0, 0⟩
        (ProfileOutcome.returned [some ⟨1, 0⟩, some ⟨1, 100⟩]) 640 1 16 =
        Except.ok (pyInt ((freeGiB ⟨2 ^ 30, 0, 0⟩ * 1 - (-100)) / 100)) := by
      simp [autobatch, hfit]
    rw [e, hfree]
    have : pyInt ((1 - (-100)) / 100 : ℚ) = 1 :=
      pyInt_nonneg_eq _ 1 (by norm_num) (by norm_num) (by norm_num)
    simp only [one_mul] at *
    rw [this]
  · have e : autobatch ⟨DeviceType.cuda, false, []⟩ ⟨2 ^ 30, 0, 0⟩
        (ProfileOutcome.returned [some ⟨1, 0⟩, some ⟨1, 100⟩]) 640 (1 / 2) 16 =
        Except.ok (pyInt ((freeGiB ⟨2 ^ 30, 0, 0⟩ * (1 / 2) - (-100)) / 100)) := by
      simp [autobatch, hfit]
    rw [e, hfree]
    have : pyInt ((1 * (1 / 2) - (-100)) / 100 : ℚ) = 1 :=
      pyInt_nonneg_eq _ 1 (by norm_num) (by norm_num) (by norm_num)
    rw [this]

/-- C7 (amended): for identical probe data with positive fitted slope and
positive free memory, the batch size returned for the larger target
fraction is greater than or equal to (not necessarily strictly greater
than) the one returned for the smaller fraction: `int()` truncation can
collapse a strict gap of the exact predictions. -/
theorem autobatch_fraction_monotone (model : Model) (mem : MemStats)
    (entries : List (Option ProbeSample)) (imgsz : ℕ) (bsz : ℤ)
    (f₁ f₂ : ℚ) (slope intercept : ℚ)
    (hdev : model.device = DeviceType.cuda)
    (hfit : polyfit1 (fitBatchSizes entries) (keepTruthy entries) =
      some (slope, intercept))
    (hslope : 0 < slope) (hfree : 0 < freeGiB mem) (hfr : f₂ ≤ f₁) :
    ∃ b₁ b₂ : ℤ,
      autobatch model mem (ProfileOutcome.returned entries) imgsz f₁ bsz =
        Except.ok b₁ ∧
      autobatch model mem (ProfileOutcome.returned entries) imgsz f₂ bsz =
        Except.ok b₂ ∧
      b₂ ≤ b₁ := by
  refine ⟨pyInt ((freeGiB mem * f₁ - intercept) / slope),
    pyInt ((freeGiB mem * f₂ - intercept) / slope), ?_, ?_, ?_⟩
  · simp [autobatch, hdev, hfit, hslope.ne']
  · simp [autobatch, hdev, hfit, hslope.ne']
  · refine pyInt_mono ((div_le_div_iff_of_pos_right hslope).mpr ?_)
    have := mul_le_mul_of_nonneg_left hfr hfree.le
    linarith

theorem autobatch_fraction_monotone_witness :
    ∃ b₁ b₂ : ℤ,
      autobatch ⟨DeviceType.cuda, false, []⟩ ⟨2 ^ 30, 0, 0⟩
          (ProfileOutcome.returned [some ⟨1, 0⟩, some ⟨1, 100⟩]) 640 1 16 =
        Except.ok b₁ ∧
      autobatch ⟨DeviceType.cuda, false, []⟩ ⟨2 ^ 30, 0, 0⟩
          (ProfileOutcome.returned [some ⟨1, 0⟩, some ⟨1, 100⟩]) 640 (1 / 2) 16 =
        Except.ok b₂ ∧
      b₂ ≤ b₁ :=
  autobatch_fraction_monotone ⟨DeviceType.cuda, false, []⟩ ⟨2 ^ 30, 0, 0⟩
    [some ⟨1, 0⟩, some ⟨1, 100⟩] 640 16 1 (1 / 2) 100 (-100) rfl
    (by norm_num [polyfit1, fitBatchSizes, keepTruthy, candidateBatchSizes,
      lsqDet, sqSum, dotSum])
    (by norm_num)
    (by norm_num [freeGiB, totalGiB, reservedGiB, allocatedGiB, gibibyte])
    (by norm_num)
